import Mathlib

/-!
# Verification of the mind-web weather dashboard core

Shallow embedding of the algorithmic core of the `mind-web` repository:
the value-to-color classifier, the time-window aggregator, the date-range
validator, the response cache, the fetch orchestrator's effect trace, and
the polygon drawing reducers.

Modelling conventions:
* JavaScript numbers are modelled as rationals (`ℚ`); instants (millisecond
  epoch timestamps, `Date.getTime()` values) as integers (`ℤ`).
* `Array.prototype.sort` with comparator `(a, b) => a.x - b.x` is a stable
  sort by `x`; it is modelled by `List.insertionSort` with the total
  preorder `a.x ≤ b.x`, which is likewise stable, and stable sorts under
  the same preorder agree.
* A JavaScript `Map` is modelled as an insertion-ordered association list
  with pairwise-distinct keys; `Map.set` of an existing key updates the
  value in place (preserving the key's position), otherwise appends.
* `lat.toFixed(4)` is modelled by rounding to an integer number of
  10⁻⁴ units.  The cache key string `` `${lat}_${lng}_${start}_${end}` ``
  is injective in its four underscore-free components, so it is modelled
  as a 4-tuple.
-/

namespace MindWeb

/-- The five comparison operators of `ColorRule.operator`
(`src/test/src/store/index.ts`). -/
inductive Operator where
  | lt
  | le
  | eq
  | ge
  | gt
deriving DecidableEq, Repr

/-- `ColorRule` from `src/test/src/store/index.ts`:
`{id, operator, value, color}`. -/
structure ColorRule where
  id : String
  operator : Operator
  value : ℚ
  color : String
deriving DecidableEq, Repr

/-- The fixed default polygon color `'#3388ff'` used by both classifier
implementations. -/
def defaultColor : String := "#3388ff"

/-- One iteration of the `switch (rule.operator)` test shared by both
classifier implementations: `<` and `>` strict, `<=` and `>=` non-strict,
`=` means `Math.abs(value - rule.value) < 0.1`. -/
def ruleMatches (value : ℚ) (rule : ColorRule) : Bool :=
  match rule.operator with
  | .lt => value < rule.value
  | .le => value ≤ rule.value
  | .eq => |value - rule.value| < 1/10
  | .ge => value ≥ rule.value
  | .gt => value > rule.value

/-- The stable ascending sort `[...colorRules].sort((a, b) => a.value - b.value)`
performed by both classifier implementations. -/
def sortRules (colorRules : List ColorRule) : List ColorRule :=
  colorRules.insertionSort fun a b => a.value ≤ b.value

/-- `applyColorRules` from the weather service embedded in `src/src/App.tsx`
(lines 216–261): empty/missing rule list returns the default color;
otherwise the rules are sorted ascending by threshold and iterated,
each matching rule overwriting `matchedColor`, so the last matching rule
in ascending order wins. -/
def applyColorRules (value : ℚ) (colorRules : List ColorRule) : String :=
  if colorRules.length = 0 then
    defaultColor
  else
    (sortRules colorRules).foldl
      (fun matchedColor rule =>
        if ruleMatches value rule then rule.color else matchedColor)
      defaultColor

/-- The loop of `applyColorRules` from `src/unnamed/part_000` (lines 41–67):
return the color of the first rule of the sorted list whose test matches. -/
def firstMatchLoop (value : ℚ) : List ColorRule → String
  | [] => defaultColor
  | rule :: rest =>
    if ruleMatches value rule then rule.color else firstMatchLoop value rest

/-- `applyColorRules` from `src/unnamed/part_000` (lines 41–67): sort the
rules ascending by threshold and return the color of the *first* matching
rule, or the default color when none matches. -/
def applyColorRulesPart000 (value : ℚ) (colorRules : List ColorRule) : String :=
  firstMatchLoop value (sortRules colorRules)

/-- The example rule set `[{>=,10,green},{>=,25,red}]` from the spec. -/
def exampleRules : List ColorRule :=
  [⟨"r1", .ge, 10, "green"⟩, ⟨"r2", .ge, 25, "red"⟩]

/-- Two rules sharing the threshold 10 in the two possible input orders:
the stable sort preserves the input order of the tie, so classification
depends on it. -/
def dupRulesGR : List ColorRule :=
  [⟨"a", .ge, 10, "green"⟩, ⟨"b", .ge, 10, "red"⟩]

/-- The same two rules as `dupRulesGR`, in the opposite input order. -/
def dupRulesRG : List ColorRule :=
  [⟨"b", .ge, 10, "red"⟩, ⟨"a", .ge, 10, "green"⟩]

/-! ## Aggregator (`calculateAverageValue`, App.tsx lines 264–305)

Timestamps are instants (`ℤ`, millisecond epoch values of the parsed ISO
strings); data values are `Option ℚ`, `none` standing for `null`.
`windowValues` is the loop
`timeArray.forEach((timeStr, index) => { ... values.push(data[index]) })`:
position `index` pairs `timeArray[index]` with `data[index]`, an index
beyond the data array reads `undefined` and is excluded, and a value is
pushed only when the timestamp is within `[startTime, endTime]`
*inclusive* and the value is present. -/

/-- The in-window sample collection loop of `calculateAverageValue`. -/
def windowValues : List ℤ → List (Option ℚ) → ℤ → ℤ → List ℚ
  | [], _, _, _ => []
  | _ :: ts, [], s, e => windowValues ts [] s e
  | t :: ts, v :: vs, s, e =>
    if s ≤ t ∧ t ≤ e then
      match v with
      | some x => x :: windowValues ts vs s e
      | none => windowValues ts vs s e
    else windowValues ts vs s e

/-- `calculateAverageValue` from the weather service embedded in
`src/src/App.tsx` (lines 264–305): mean of the in-window present samples;
if none survive, the last present value of the whole series
(`validData[validData.length - 1]`); if the series has no present value,
0. -/
def calculateAverageValue (data : List (Option ℚ)) (timeArray : List ℤ)
    (startTime endTime : ℤ) : ℚ :=
  let values := windowValues timeArray data startTime endTime
  if values.length = 0 then
    match (data.filterMap id).getLast? with
    | some recent => recent
    | none => 0
  else
    values.sum / (values.length : ℚ)

/-! ## Date-range validator (`validateDateRange`, App.tsx lines 176–213)

Dates are millisecond epoch instants (`Date.getTime()` values, `ℤ`).
The caller passes `now` explicitly (the source reads `new Date()`).
The human-readable `message` strings are diagnostic only and are omitted.
-/

/-- One day in milliseconds (`24 * 60 * 60 * 1000`). -/
def dayMs : ℤ := 24 * 60 * 60 * 1000

/-- The earliest supported archive date, `new Date('1940-01-01')`,
as a millisecond epoch instant. -/
def oldestDateMs : ℤ := -946771200000

/-- Result record of `validateDateRange`:
`{isValid, adjustedStart?, adjustedEnd?}`. -/
structure DateRangeValidation where
  isValid : Bool
  adjustedStart : Option ℤ
  adjustedEnd : Option ℤ
deriving DecidableEq, Repr

/-- `validateDateRange` from the weather service embedded in
`src/src/App.tsx` (lines 176–213): first matching rule wins, in the order
future start → span too large (`Math.ceil` of the day count exceeds 30) →
start before the 1940-01-01 floor → valid. -/
def validateDateRange (startDate endDate now : ℤ) : DateRangeValidation :=
  let rangeDays : ℤ := ⌈((endDate - startDate : ℤ) : ℚ) / ((24 : ℚ) * 60 * 60 * 1000)⌉
  if startDate > now then
    ⟨false, some (now - dayMs), some now⟩
  else if rangeDays > 30 then
    ⟨false, some (endDate - 30 * dayMs), some endDate⟩
  else if startDate < oldestDateMs then
    ⟨false, some oldestDateMs, some endDate⟩
  else
    ⟨true, none, none⟩

/-- The resolved window used by the orchestrator:
`validation.adjustedStart || startDate` and
`validation.adjustedEnd || endDate` (App.tsx lines 332–334). -/
def resolvedRange (startDate endDate now : ℤ) : ℤ × ℤ :=
  let v := validateDateRange startDate endDate now
  (v.adjustedStart.getD startDate, v.adjustedEnd.getD endDate)

/-! ## Response cache (App.tsx lines 76–152)

The module-level `Map<string, {data, timestamp}>` is modelled as an
insertion-ordered list of entries with pairwise-distinct keys, which is
exactly the iteration/update semantics of a JavaScript `Map`:
`Map.set` of an existing key updates the value in place keeping the key's
position, otherwise appends; `Array.from(map.entries())` lists entries in
insertion order; `Map.delete` removes an entry keeping the others' order.
The key string `` `${lat.toFixed(4)}_${lng.toFixed(4)}_${start}_${end}` ``
is injective in its four underscore-free components and is modelled as a
4-tuple, `toFixed(4)` as rounding to an integer count of 10⁻⁴ units. -/

/-- The `hourly` payload of an Open-Meteo response:
`{time, temperature_2m}`, timestamps as instants, temperatures optional
(`null` entries occur in archive data). -/
structure OpenMeteoHourly where
  time : List ℤ
  temperature_2m : List (Option ℚ)
deriving DecidableEq, Repr

/-- `OpenMeteoResponse` from App.tsx; `hourly = none` models a malformed
body whose `hourly`/`time`/`temperature_2m` fields are missing. -/
structure OpenMeteoResponse where
  latitude : ℚ
  longitude : ℚ
  hourly : Option OpenMeteoHourly
deriving DecidableEq, Repr

/-- `x.toFixed(4)` as an integer count of 10⁻⁴ units (rounding to
nearest). -/
def toFixed4 (x : ℚ) : ℤ := round (x * 10000)

/-- The cache key; the source's underscore-joined string is injective in
these four components. -/
structure CacheKey where
  lat4 : ℤ
  lng4 : ℤ
  startDate : String
  endDate : String
deriving DecidableEq, Repr

/-- `generateCacheKey` from App.tsx lines 89–96. -/
def generateCacheKey (latitude longitude : ℚ) (startDate endDate : String) :
    CacheKey :=
  ⟨toFixed4 latitude, toFixed4 longitude, startDate, endDate⟩

/-- One cache slot: key, raw response, insertion instant (`Date.now()`). -/
structure CacheEntry where
  key : CacheKey
  data : OpenMeteoResponse
  timestamp : ℤ
deriving DecidableEq, Repr

/-- The cache map in insertion order. -/
abbrev WeatherCache := List CacheEntry

/-- `CACHE_DURATION = 5 * 60 * 1000` (5 minutes, App.tsx line 76). -/
def CACHE_DURATION : ℤ := 5 * 60 * 1000

/-- `weatherDataCache.set(key, {data, timestamp})`. -/
def mapSet (c : WeatherCache) (k : CacheKey) (d : OpenMeteoResponse)
    (ts : ℤ) : WeatherCache :=
  if c.any (fun e => e.key == k) then
    c.map fun e => if e.key == k then ⟨k, d, ts⟩ else e
  else
    c ++ [⟨k, d, ts⟩]

/-- `entries.sort((a, b) => a[1].timestamp - b[1].timestamp)`: stable
ascending sort by insertion time. -/
def sortByTimestamp (c : WeatherCache) : WeatherCache :=
  c.insertionSort fun a b => a.timestamp ≤ b.timestamp

/-- The body of `cacheWeatherData` (App.tsx lines 127–152) after key
generation: insert/overwrite; when the size then exceeds 50, sort all
entries ascending by insertion time and delete the oldest 10 keys. -/
def cachePut (k : CacheKey) (d : OpenMeteoResponse) (now : ℤ)
    (c : WeatherCache) : WeatherCache :=
  let c1 := mapSet c k d now
  if 50 < c1.length then
    let victims := ((sortByTimestamp c1).take 10).map CacheEntry.key
    c1.filter fun e => !(victims.contains e.key)
  else c1

/-- `cacheWeatherData` from App.tsx lines 127–152. -/
def cacheWeatherData (lat lng : ℚ) (startDate endDate : String)
    (d : OpenMeteoResponse) (now : ℤ) (c : WeatherCache) : WeatherCache :=
  cachePut (generateCacheKey lat lng startDate endDate) d now c

/-- `isCacheValid` from App.tsx lines 99–101:
`Date.now() - timestamp < CACHE_DURATION`. -/
def isCacheValid (timestamp now : ℤ) : Bool :=
  now - timestamp < CACHE_DURATION

/-- `getCachedWeatherData` from App.tsx lines 104–124: return the cached
data when present and fresh; delete a present-but-expired entry as a side
effect and return nothing. -/
def getCachedWeatherData (lat lng : ℚ) (startDate endDate : String)
    (now : ℤ) (c : WeatherCache) : Option OpenMeteoResponse × WeatherCache :=
  let k := generateCacheKey lat lng startDate endDate
  match c.find? (fun e => e.key == k) with
  | some e =>
    if isCacheValid e.timestamp now then (some e.data, c)
    else (none, c.filter fun x => !(x.key == k))
  | none => (none, c)

/-- The `i`-th distinct cache key of the 51-insert eviction scenario. -/
def scenarioKey (i : ℤ) : CacheKey :=
  ⟨i, 0, "s", "e"⟩

/-- A fixed response payload for the eviction scenario. -/
def scenarioResponse : OpenMeteoResponse :=
  ⟨0, 0, none⟩

/-- The cache after inserting 51 distinct keys into an empty cache at
strictly increasing insertion times 0, 1, …, 50. -/
def scenarioCache : WeatherCache :=
  (List.range 51).foldl
    (fun c i => cachePut (scenarioKey i) scenarioResponse i c) []

/-! ## Redux state types and polygon reducers
(`src/src/store/slices/polygonSlice.ts`) -/

/-- `PolygonPoint` from polygonSlice.ts. -/
structure PolygonPoint where
  lat : ℚ
  lng : ℚ
deriving DecidableEq, Repr

/-- `Polygon` from polygonSlice.ts. -/
structure Polygon where
  id : String
  name : String
  points : List PolygonPoint
  dataSourceId : String
  color : String
  value : Option ℚ
  isEditing : Option Bool
deriving DecidableEq, Repr

/-- `PolygonState` from polygonSlice.ts. -/
structure PolygonState where
  polygons : List Polygon
  isDrawing : Bool
  selectedPolygonId : Option String
  drawingPoints : List PolygonPoint
deriving DecidableEq, Repr

/-- The initial polygon slice state. -/
def initialPolygonState : PolygonState :=
  ⟨[], false, none, []⟩

/-- The `Partial<Polygon>` payload of the `updatePolygon` reducer: each
field optionally present (an absent field leaves the polygon's field
unchanged under object spread). -/
structure PolygonUpdates where
  id : Option String := none
  name : Option String := none
  points : Option (List PolygonPoint) := none
  dataSourceId : Option String := none
  color : Option String := none
  value : Option ℚ := none
  isEditing : Option Bool := none
deriving DecidableEq, Repr

/-- `{ ...polygon, ...updates }`. -/
def applyUpdates (p : Polygon) (u : PolygonUpdates) : Polygon :=
  { id := u.id.getD p.id
    name := u.name.getD p.name
    points := u.points.getD p.points
    dataSourceId := u.dataSourceId.getD p.dataSourceId
    color := u.color.getD p.color
    value := u.value.or p.value
    isEditing := u.isEditing.or p.isEditing }

/-- `state.polygons.findIndex(...)` followed by an in-place update of that
index: only the first polygon with a matching id is rewritten. -/
def updateFirst (f : Polygon → Polygon) (id : String) :
    List Polygon → List Polygon
  | [] => []
  | p :: ps => if p.id == id then f p :: ps else p :: updateFirst f id ps

/-- The polygon slice's action grammar (polygonSlice.ts reducers).
`finishDrawing` carries the generated id ``polygon_${Date.now()}`` as a
parameter. -/
inductive PolygonAction where
  | startDrawing
  | addDrawingPoint (p : PolygonPoint)
  | finishDrawing (name dataSourceId newId : String)
  | cancelDrawing
  | updatePolygon (id : String) (updates : PolygonUpdates)
  | deletePolygon (id : String)
  | selectPolygon (id : Option String)
  | updatePolygonColor (id : String) (color : String) (value : Option ℚ)
deriving DecidableEq, Repr

/-- The polygon slice reducer (polygonSlice.ts lines 35–82).
`finishDrawing` (lines 43–56) pushes a new polygon only when the draft has
at least 3 points, and clears `isDrawing`/`drawingPoints` in every case.
`updatePolygonColor` sets the value only when one is supplied
(`value !== undefined`). -/
def polygonReducer (st : PolygonState) : PolygonAction → PolygonState
  | .startDrawing => { st with isDrawing := true, drawingPoints := [] }
  | .addDrawingPoint p => { st with drawingPoints := st.drawingPoints ++ [p] }
  | .finishDrawing name dataSourceId newId =>
    let st1 :=
      if 3 ≤ st.drawingPoints.length then
        { st with polygons := st.polygons ++
            [⟨newId, name, st.drawingPoints, dataSourceId, "#3388ff",
              none, none⟩] }
      else st
    { st1 with isDrawing := false, drawingPoints := [] }
  | .cancelDrawing => { st with isDrawing := false, drawingPoints := [] }
  | .updatePolygon id u =>
    { st with polygons := updateFirst (fun p => applyUpdates p u) id st.polygons }
  | .deletePolygon id =>
    { st with polygons := st.polygons.filter fun p => !(p.id == id) }
  | .selectPolygon id => { st with selectedPolygonId := id }
  | .updatePolygonColor id color value =>
    let f := fun p : Polygon =>
      { p with color := color, value := value.or p.value }
    { st with polygons := updateFirst f id st.polygons }

/-- Folding a list of actions through the reducer. -/
def runActions (st : PolygonState) (acts : List PolygonAction) : PolygonState :=
  acts.foldl polygonReducer st

/-- An action that never writes a `points` field: every action except an
`updatePolygon` whose payload carries `points`.  The repository's only
`updatePolygon` call site (the rename modal) passes `{ name }`. -/
def pointsPreserving : PolygonAction → Prop
  | .updatePolygon _ u => u.points = none
  | _ => True

/-! ## Fetch orchestrator (`fetchWeatherData`, App.tsx lines 308–440)

The orchestrator's side effects are modelled as the list of Redux actions
it dispatches, in order.  The data acquisition inside the `try` block
(cache hit, or `axios.get` resolving or throwing) is abstracted as a
`FetchOutcome` parameter; everything after it is the source's control
flow. -/

/-- `WeatherData` from `dataSourceSlice` as published by
`setWeatherData`. -/
structure WeatherData where
  latitude : ℚ
  longitude : ℚ
  time : List ℤ
  temperature_2m : List (Option ℚ)
deriving DecidableEq, Repr

/-- The actions dispatched by the orchestrator. -/
inductive Action where
  | setLoading (b : Bool)
  | setError (msg : Option String)
  | setWeatherData (polygonId : String) (data : WeatherData)
  | updatePolygonColor (id : String) (color : String) (value : Option ℚ)
deriving DecidableEq, Repr

/-- How the data acquisition resolves: a response body (from cache or a
2xx HTTP reply — possibly malformed, `hourly = none`), an axios error
(status / error-code / upstream reason, each optional), or any other
thrown `Error`. -/
inductive FetchOutcome where
  | success (resp : OpenMeteoResponse)
  | axiosFailure (status : Option ℕ) (code : Option String)
      (reason : Option String)
  | errorFailure (msg : String)
deriving DecidableEq, Repr

/-- The `catch` block's message selection for axios errors
(App.tsx lines 422–431): 429 → rate limit; ≥ 500 → unavailable;
`ECONNABORTED` → timeout; an upstream `reason` → `API Error: …`;
otherwise the generic message. -/
def classifyAxiosError (status : Option ℕ) (code : Option String)
    (reason : Option String) : String :=
  if status == some 429 then
    "API rate limit exceeded. Please try again later."
  else if (match status with | some s => decide (500 ≤ s) | none => false) then
    "Weather service temporarily unavailable."
  else if code == some "ECONNABORTED" then
    "Request timeout. Please check your connection."
  else
    match reason with
    | some r => "API Error: " ++ r
    | none => "Failed to fetch weather data"

/-- The requested dates (App.tsx lines 322–323): default end is
yesterday (`Date.now() − 24h`), default start is 7 days before the end. -/
def fetchDates (selectedStartTime selectedEndTime : Option ℤ) (now : ℤ) :
    ℤ × ℤ :=
  let endDate := selectedEndTime.getD (now - dayMs)
  let startDate := selectedStartTime.getD (endDate - 7 * dayMs)
  (startDate, endDate)

/-- The dispatch trace of `fetchWeatherData` (App.tsx lines 308–440):
`setLoading true`, `setError null`, then on a well-formed body
`setWeatherData` and `updatePolygonColor` with the average over the
*validator-resolved* window classified by the rules; on a malformed body
or any failure a single `setError message`; finally `setLoading false`. -/
def fetchWeatherDataTrace (polygon : Polygon)
    (selectedStartTime selectedEndTime : Option ℤ) (now : ℤ)
    (colorRules : List ColorRule) (outcome : FetchOutcome) : List Action :=
  let dates := fetchDates selectedStartTime selectedEndTime now
  let actual := resolvedRange dates.1 dates.2 now
  [Action.setLoading true, Action.setError none] ++
  (match outcome with
   | .success resp =>
     match resp.hourly with
     | some hourly =>
       let averageValue :=
         calculateAverageValue hourly.temperature_2m hourly.time
           actual.1 actual.2
       let color := applyColorRules averageValue colorRules
       [Action.setWeatherData polygon.id
          ⟨resp.latitude, resp.longitude, hourly.time, hourly.temperature_2m⟩,
        Action.updatePolygonColor polygon.id color (some averageValue)]
     | none =>
       [Action.setError (some "Invalid response format from Open-Meteo API")]
   | .axiosFailure status code reason =>
     [Action.setError (some (classifyAxiosError status code reason))]
   | .errorFailure msg => [Action.setError (some msg)]) ++
  [Action.setLoading false]

/-- An outcome the `try` block converts into the error path: any failure,
or a 2xx body missing the expected series fields. -/
def isFailureOutcome : FetchOutcome → Prop
  | .success resp => resp.hourly = none
  | .axiosFailure _ _ _ => True
  | .errorFailure _ => True

/-- Is this action a published (non-null) error message? -/
def isErrorMessage : Action → Bool
  | .setError (some _) => true
  | _ => false

/-- Is this action a polygon color/value update? -/
def isColorUpdate : Action → Bool
  | .updatePolygonColor _ _ _ => true
  | _ => false

/-- The `{color, value}` published by the first `updatePolygonColor`
of a trace, if any. -/
def publishedColorValue (trace : List Action) : Option (String × Option ℚ) :=
  trace.findSome? fun a =>
    match a with
    | .updatePolygonColor _ color value => some (color, value)
    | _ => none

/-- The effect of one dispatched action on the polygon list (only
`updatePolygonColor` touches it; `polygonSlice.ts` lines 73–81). -/
def stepPolygons (polygons : List Polygon) : Action → List Polygon
  | .updatePolygonColor id color value =>
    updateFirst (fun p => { p with color := color, value := value.or p.value })
      id polygons
  | _ => polygons

/-- A sample polygon for concrete instances. -/
def examplePolygon : Polygon :=
  ⟨"p1", "Polygon 1", [⟨515, -9/100⟩, ⟨52, 0⟩, ⟨51, 1⟩], "ds1", "#3388ff",
    none, none⟩

/-- A full 50-entry cache used to exercise the eviction path. -/
def witnessCache : WeatherCache :=
  (List.range 50).map fun i => ⟨scenarioKey i, scenarioResponse, i⟩

/-- A drawing session: start, three clicks, finish. -/
def demoActs : List PolygonAction :=
  [.startDrawing, .addDrawingPoint ⟨0, 0⟩, .addDrawingPoint ⟨1, 0⟩,
   .addDrawingPoint ⟨0, 1⟩, .finishDrawing "Area" "ds1" "polygon_1"]

/-- The polygon `demoActs` persists. -/
def demoPolygon : Polygon :=
  ⟨"polygon_1", "Area", [⟨0, 0⟩, ⟨1, 0⟩, ⟨0, 1⟩], "ds1", "#3388ff",
    none, none⟩

/-! ## Theorems -/

/-- The overwrite loop of the App.tsx classifier computes the color of the
last matching rule (or the initial accumulator when none matches). -/
theorem foldl_overwrite_eq (value : ℚ) (l : List ColorRule) (acc : String) :
    l.foldl (fun m r => if ruleMatches value r then r.color else m) acc =
      ((l.filter fun r => ruleMatches value r).getLast?.elim acc ColorRule.color) := by
  induction l generalizing acc with
  | nil => rfl
  | cons r rest ih =>
    by_cases h : ruleMatches value r
    · simp only [List.foldl_cons, List.filter_cons, h, if_true, ite_true]
      rw [ih]
      cases hf : rest.filter (fun r => ruleMatches value r) with
      | nil => simp [hf]
      | cons x xs =>
        rw [List.getLast?_cons_cons]
        rcases hg : (x :: xs).getLast? with _ | y
        · simp at hg
        · simp [hg]
    · simp only [List.foldl_cons, List.filter_cons, h, if_false, ite_false]
      exact ih acc

/-- The early-return loop of the part_000 classifier computes the color of
the first matching rule (or the default when none matches). -/
theorem firstMatchLoop_eq (value : ℚ) (l : List ColorRule) :
    firstMatchLoop value l =
      ((l.filter fun r => ruleMatches value r).head?.elim defaultColor ColorRule.color) := by
  induction l with
  | nil => rfl
  | cons r rest ih =>
    by_cases h : ruleMatches value r <;>
      simp [firstMatchLoop, List.filter_cons, h, ih]

/-- The App.tsx classifier equals: color of the last matching rule of the
sorted order, default when none matches. -/
theorem applyColorRules_eq_lastMatch (value : ℚ) (rules : List ColorRule) :
    applyColorRules value rules =
      (((sortRules rules).filter fun r => ruleMatches value r).getLast?.elim
        defaultColor ColorRule.color) := by
  unfold applyColorRules
  by_cases h : rules.length = 0
  · rw [List.length_eq_zero] at h
    subst h
    rfl
  · simp only [h, if_false, ite_false]
    exact foldl_overwrite_eq value (sortRules rules) defaultColor

/-- **C1.** For every finite rule set `R` and value `v`,
`applyColorRules v R` sorts `R` ascending by threshold and returns the
color of the last rule in that ascending order whose operator test matches
`v` (`<` strict, `<=` non-strict, `=` within absolute tolerance 0.1,
`>=` non-strict, `>` strict, per `ruleMatches`); if no rule matches or `R`
is empty it returns the default color `#3388ff`.  In particular for
`R = [{>=,10,green},{>=,25,red}]`: `applyColorRules 30 R = "red"`,
`applyColorRules 15 R = "green"`, `applyColorRules 5 R = defaultColor`. -/
theorem applyColorRules_last_match_wins :
    (∀ (value : ℚ) (rules : List ColorRule),
      applyColorRules value rules =
        (((sortRules rules).filter fun r => ruleMatches value r).getLast?.elim
          defaultColor ColorRule.color)) ∧
    applyColorRules 30 exampleRules = "red" ∧
    applyColorRules 15 exampleRules = "green" ∧
    applyColorRules 5 exampleRules = defaultColor ∧
    (∀ value : ℚ, applyColorRules value [] = defaultColor) :=
  ⟨applyColorRules_eq_lastMatch, by decide, by decide, by decide, fun _ => rfl⟩

/-- `sortRules` permutes its input. -/
theorem sortRules_perm (rules : List ColorRule) : (sortRules rules).Perm rules :=
  List.perm_insertionSort _ rules

/-- `sortRules` sorts weakly ascending by threshold. -/
theorem sortRules_sorted (rules : List ColorRule) :
    (sortRules rules).Sorted fun a b => a.value ≤ b.value := by
  haveI : IsTotal ColorRule (fun a b => a.value ≤ b.value) :=
    ⟨fun a b => le_total a.value b.value⟩
  haveI : IsTrans ColorRule (fun a b => a.value ≤ b.value) :=
    ⟨fun _ _ _ hab hbc => le_trans hab hbc⟩
  exact List.sorted_insertionSort _ rules

/-- When the thresholds of a rule list are pairwise distinct, `sortRules`
sorts it strictly ascending by threshold. -/
theorem sortRules_sorted_strict (rules : List ColorRule)
    (hnodup : (rules.map ColorRule.value).Nodup) :
    (sortRules rules).Sorted fun a b => a.value < b.value := by
  have hsorted := sortRules_sorted rules
  have hnodup' : ((sortRules rules).map ColorRule.value).Nodup :=
    (((sortRules_perm rules).map ColorRule.value).nodup_iff).mpr hnodup
  rw [List.Nodup, List.pairwise_map] at hnodup'
  exact (hsorted.and hnodup').imp fun h => lt_of_le_of_ne h.1 h.2

/-- For rule lists with pairwise-distinct thresholds, `sortRules` is
invariant under permutation of its input: the strictly sorted order is
unique. -/
theorem sortRules_eq_of_perm (R R' : List ColorRule) (hperm : R.Perm R')
    (hnodup : (R.map ColorRule.value).Nodup) :
    sortRules R = sortRules R' := by
  haveI : IsAntisymm ColorRule (fun a b => a.value < b.value) :=
    ⟨fun a b h1 h2 => absurd h1 (not_lt.mpr (le_of_lt h2))⟩
  have hperm' : (sortRules R).Perm (sortRules R') :=
    ((sortRules_perm R).trans hperm).trans (sortRules_perm R').symm
  exact List.eq_of_perm_of_sorted hperm' (sortRules_sorted_strict R hnodup)
    (sortRules_sorted_strict R' ((hperm.map ColorRule.value).nodup_iff.mp hnodup))

/-- **C7 (counterexample).** `applyColorRules` is *not* invariant under
permutation of the rule list: with two rules sharing threshold 10, the
stable internal sort preserves their input order, so the "last match wins"
loop returns the color of whichever matching rule came later in the input.
-/
theorem applyColorRules_perm_counterexample :
    dupRulesGR.Perm dupRulesRG ∧
    applyColorRules 30 dupRulesGR = "red" ∧
    applyColorRules 30 dupRulesRG = "green" ∧
    applyColorRules 30 dupRulesGR ≠ applyColorRules 30 dupRulesRG := by
  refine ⟨List.Perm.swap _ _ _, by decide, by decide, by decide⟩

/-- **C7 (amended).** For every rule set whose thresholds are pairwise
distinct, `applyColorRules` is deterministic and invariant under
permutation of the input ordering of the rules: the internal ascending
sort then has a unique result.  (With duplicated thresholds the stable
sort preserves input order among ties and the result can depend on it.) -/
theorem applyColorRules_perm_invariant (value : ℚ) (R R' : List ColorRule)
    (hperm : R.Perm R') (hnodup : (R.map ColorRule.value).Nodup) :
    applyColorRules value R = applyColorRules value R' := by
  unfold applyColorRules
  rw [sortRules_eq_of_perm R R' hperm hnodup, hperm.length_eq]

/-- Witness for `applyColorRules_perm_invariant` at the spec's example rule
set (thresholds 10 and 25) and its reversal. -/
theorem applyColorRules_perm_invariant_witness :
    applyColorRules 30 exampleRules =
      applyColorRules 30 [⟨"r2", .ge, 25, "red"⟩, ⟨"r1", .ge, 10, "green"⟩] :=
  applyColorRules_perm_invariant 30 exampleRules
    [⟨"r2", .ge, 25, "red"⟩, ⟨"r1", .ge, 10, "green"⟩]
    (List.Perm.swap _ _ _) (by decide)

/-- **C10 (counterexample).** The two classifier implementations disagree:
on the rule set `[{>=,10,green},{>=,25,red}]` at value 30, the part_000
implementation returns the *first* matching rule's color (`green`) while
the App.tsx implementation returns the *last* matching rule's color
(`red`). -/
theorem classifiers_disagree :
    applyColorRulesPart000 30 exampleRules = "green" ∧
    applyColorRules 30 exampleRules = "red" ∧
    applyColorRulesPart000 30 exampleRules ≠ applyColorRules 30 exampleRules := by
  refine ⟨by decide, by decide, by decide⟩

/-- **C10 (amended).** The part_000 classifier returns the first matching
rule of the ascending order and the App.tsx classifier the last, so the
two implementations agree exactly when at most one rule matches the value
(in particular on empty rule sets and whenever no rule matches, where both
return the default color). -/
theorem classifiers_agree_of_at_most_one_match (value : ℚ)
    (rules : List ColorRule)
    (h : (rules.filter fun r => ruleMatches value r).length ≤ 1) :
    applyColorRulesPart000 value rules = applyColorRules value rules := by
  have hlen : ((sortRules rules).filter fun r => ruleMatches value r).length ≤ 1 := by
    rwa [((sortRules_perm rules).filter _).length_eq]
  rw [applyColorRules_eq_lastMatch value rules]
  unfold applyColorRulesPart000
  rw [firstMatchLoop_eq]
  cases hf : (sortRules rules).filter fun r => ruleMatches value r with
  | nil => rfl
  | cons x xs =>
    cases xs with
    | nil => rfl
    | cons y ys => rw [hf] at hlen; simp at hlen

/-- Witness for `classifiers_agree_of_at_most_one_match` at value 15 on
the spec's example rule set, where only the `>= 10` rule matches. -/
theorem classifiers_agree_witness :
    applyColorRulesPart000 15 exampleRules = applyColorRules 15 exampleRules :=
  classifiers_agree_of_at_most_one_match 15 exampleRules (by decide)

/-- For equal-length inputs, the sample-collection loop equals filtering
the zipped series to present values whose timestamp is in the window. -/
theorem windowValues_eq_zip (timeArray : List ℤ) (data : List (Option ℚ))
    (s e : ℤ) (hlen : data.length = timeArray.length) :
    windowValues timeArray data s e =
      (timeArray.zip data).filterMap fun p =>
        if s ≤ p.1 ∧ p.1 ≤ e then p.2 else none := by
  induction timeArray generalizing data with
  | nil => cases data <;> rfl
  | cons t ts ih =>
    cases data with
    | nil => simp at hlen
    | cons v vs =>
      simp only [List.length_cons, Nat.succ_inj] at hlen
      by_cases hw : s ≤ t ∧ t ≤ e
      · cases v with
        | some x => simp [windowValues, hw, List.zip_cons_cons,
            List.filterMap_cons, ih vs hlen]
        | none => simp [windowValues, hw, List.zip_cons_cons,
            List.filterMap_cons, ih vs hlen]
      · simp [windowValues, hw, List.zip_cons_cons, List.filterMap_cons,
          ih vs hlen]

/-- **C2.** For equal-length `values`/`timestamps` and any window
`[windowStart, windowEnd]`, `calculateAverageValue` returns the arithmetic
mean of the values at indices whose timestamp lies within the window
inclusive and whose value is present; if zero samples survive that filter
it returns the last present value of the entire series regardless of the
window; if the series contains no present value it returns 0. -/
theorem calculateAverageValue_spec (data : List (Option ℚ))
    (timeArray : List ℤ) (windowStart windowEnd : ℤ)
    (hlen : data.length = timeArray.length) :
    (∀ inWin,
      inWin = ((timeArray.zip data).filterMap fun p =>
        if windowStart ≤ p.1 ∧ p.1 ≤ windowEnd then p.2 else none) →
      (inWin ≠ [] →
        calculateAverageValue data timeArray windowStart windowEnd =
          inWin.sum / (inWin.length : ℚ)) ∧
      (inWin = [] → ∀ last,
        (data.filterMap id).getLast? = some last →
        calculateAverageValue data timeArray windowStart windowEnd = last) ∧
      (inWin = [] → data.filterMap id = [] →
        calculateAverageValue data timeArray windowStart windowEnd = 0)) := by
  intro inWin hwin
  have hvals : windowValues timeArray data windowStart windowEnd = inWin :=
    hwin ▸ windowValues_eq_zip timeArray data windowStart windowEnd hlen
  unfold calculateAverageValue
  rw [hvals]
  refine ⟨fun hne => ?_, fun hnil last hlast => ?_, fun hnil hnone => ?_⟩
  · rw [if_neg (by simpa [List.length_eq_zero] using hne)]
  · rw [if_pos (by simp [hnil]), hlast]
  · rw [if_pos (by simp [hnil]), hnone]
    rfl

/-- Witness for `calculateAverageValue_spec`: a five-sample series with
exactly two present in-window samples (mean 15), whose windowed fallback
cases are also exercised on the degenerate window `[100, 99]`. -/
theorem calculateAverageValue_witness :
    calculateAverageValue [some 10, some 20, none, some 7, some 9]
      [0, 1, 2, 3, 4] 0 1 = 15 := by
  have h := (calculateAverageValue_spec
    [some 10, some 20, none, some 7, some 9] [0, 1, 2, 3, 4] 0 1 (by decide)
    [(10 : ℚ), 20] (by decide)).1 (by decide)
  rw [h]
  norm_num

/-- The code's `Math.ceil(range / dayMs) > 30` test is exactly
"`endDate - startDate` exceeds 30 days". -/
theorem rangeDays_gt_iff (s e : ℤ) :
    ((30 : ℤ) < ⌈((e : ℚ) - (s : ℚ)) / ((24 : ℚ) * 60 * 60 * 1000)⌉) ↔
      30 * dayMs < e - s := by
  rw [Int.lt_ceil, lt_div_iff₀ (by norm_num)]
  rw [show (((30 : ℤ) : ℚ) * ((24 : ℚ) * 60 * 60 * 1000)) =
      (((30 * dayMs : ℤ)) : ℚ) by norm_num [dayMs]]
  rw [show ((e : ℚ) - (s : ℚ)) = (((e - s : ℤ)) : ℚ) by push_cast; ring]
  exact Int.cast_lt

/-- **C3.** `validateDateRange` applies only the first matching rule:
a future start resolves to `[now − 24h, now]`; else a span exceeding 30
days resolves to `[end − 30d, end]`; else a start before 1940-01-01 is
raised to that floor with the end unchanged; otherwise both dates are
returned unadjusted.  In particular a future start
(`start = now + 1d, end = now + 2d`) resolves to `[now − 24h, now]`
(the future-start rule fires before the span rule), and
`(start = now − 60d, end = now)` resolves to the 30-day span
`[now − 30d, now]`. -/
theorem validateDateRange_spec :
    (∀ s e now : ℤ, s > now →
      resolvedRange s e now = (now - dayMs, now)) ∧
    (∀ s e now : ℤ, s ≤ now → e - s > 30 * dayMs →
      resolvedRange s e now = (e - 30 * dayMs, e)) ∧
    (∀ s e now : ℤ, s ≤ now → e - s ≤ 30 * dayMs → s < oldestDateMs →
      resolvedRange s e now = (oldestDateMs, e)) ∧
    (∀ s e now : ℤ, s ≤ now → e - s ≤ 30 * dayMs → oldestDateMs ≤ s →
      resolvedRange s e now = (s, e) ∧
        (validateDateRange s e now).isValid = true) ∧
    (∀ now : ℤ, resolvedRange (now + dayMs) (now + 2 * dayMs) now =
      (now - dayMs, now)) ∧
    (∀ now : ℤ, resolvedRange (now - 60 * dayMs) now now =
      (now - 30 * dayMs, now)) := by
  have hfuture : ∀ s e now : ℤ, s > now →
      resolvedRange s e now = (now - dayMs, now) := by
    intro s e now h
    simp [resolvedRange, validateDateRange, h]
  have hspan : ∀ s e now : ℤ, s ≤ now → e - s > 30 * dayMs →
      resolvedRange s e now = (e - 30 * dayMs, e) := by
    intro s e now h1 h2
    simp [resolvedRange, validateDateRange, not_lt.mpr h1, rangeDays_gt_iff, h2]
  refine ⟨hfuture, hspan, ?_, ?_, ?_, ?_⟩
  · intro s e now h1 h2 h3
    simp [resolvedRange, validateDateRange, not_lt.mpr h1, rangeDays_gt_iff,
      not_lt.mpr h2, h3]
  · intro s e now h1 h2 h3
    refine ⟨?_, ?_⟩
    · simp [resolvedRange, validateDateRange, not_lt.mpr h1, rangeDays_gt_iff,
        not_lt.mpr h2, not_lt.mpr h3]
    · simp [validateDateRange, not_lt.mpr h1, rangeDays_gt_iff,
        not_lt.mpr h2, not_lt.mpr h3]
  · intro now
    exact hfuture _ _ now (by simp only [dayMs]; omega)
  · intro now
    exact hspan (now - 60 * dayMs) now now (by simp only [dayMs]; omega)
      (by simp only [dayMs]; omega)

/-- Witness for `validateDateRange_spec`: all six conjuncts applied at
`now = 0` with concrete millisecond dates. -/
theorem validateDateRange_witness :
    resolvedRange 86400000 172800000 0 = (-86400000, 0) ∧
    resolvedRange (-5184000000) 0 0 = (-2592000000, 0) ∧
    resolvedRange (-947000000000) (-946000000000) 0 =
      (oldestDateMs, -946000000000) ∧
    resolvedRange (-86400000) 0 0 = (-86400000, 0) := by
  refine ⟨?_, ?_, ?_, ?_⟩
  · exact validateDateRange_spec.1 86400000 172800000 0 (by norm_num)
  · have h := validateDateRange_spec.2.1 (-5184000000) 0 0 (by norm_num)
      (by norm_num [dayMs])
    simpa [dayMs] using h
  · exact validateDateRange_spec.2.2.1 (-947000000000) (-946000000000) 0
      (by norm_num) (by norm_num [dayMs]) (by norm_num [oldestDateMs])
  · exact (validateDateRange_spec.2.2.2.1 (-86400000) 0 0 (by norm_num)
      (by norm_num [dayMs]) (by norm_num [oldestDateMs])).1

/-- Overwriting an existing key leaves the key sequence unchanged. -/
theorem mapSet_map_key (c : WeatherCache) (k : CacheKey)
    (d : OpenMeteoResponse) (ts : ℤ)
    (h : c.any (fun e => e.key == k) = true) :
    (mapSet c k d ts).map CacheEntry.key = c.map CacheEntry.key := by
  unfold mapSet
  rw [if_pos h, List.map_map]
  refine List.map_congr_left fun e _ => ?_
  by_cases he : e.key == k
  · simp only [Function.comp_apply, he, if_true, ite_true]
    exact (eq_of_beq he).symm
  · have hne : e.key ≠ k := by simpa using he
    simp [Function.comp_apply, hne]

/-- `sortByTimestamp` permutes the entries. -/
theorem sortByTimestamp_perm (c : WeatherCache) : (sortByTimestamp c).Perm c :=
  List.perm_insertionSort _ c

/-- Inserting an element that is `≽` everything in the list into a sorted
position keeps it last. -/
theorem orderedInsert_append_last (x e : CacheEntry) (s : List CacheEntry)
    (h : x.timestamp ≤ e.timestamp) :
    (s ++ [e]).orderedInsert (fun a b => a.timestamp ≤ b.timestamp) x =
      s.orderedInsert (fun a b => a.timestamp ≤ b.timestamp) x ++ [e] := by
  induction s with
  | nil => simp [List.orderedInsert, h]
  | cons b s ih =>
    by_cases hb : x.timestamp ≤ b.timestamp <;>
      simp [List.orderedInsert, hb, ih]

/-- Stable sort of a list whose appended last element is `≽` everything
before it keeps that element last. -/
theorem sortByTimestamp_append_last (c : WeatherCache) (e : CacheEntry)
    (h : ∀ x ∈ c, x.timestamp ≤ e.timestamp) :
    sortByTimestamp (c ++ [e]) = sortByTimestamp c ++ [e] := by
  induction c with
  | nil => rfl
  | cons x c ih =>
    unfold sortByTimestamp at ih ⊢
    rw [List.cons_append, List.insertionSort, List.insertionSort,
      ih fun y hy => h y (List.mem_cons_of_mem x hy)]
    exact orderedInsert_append_last x e _ (h x (List.mem_cons_self x c))

/-- `Map.set` preserves distinctness of keys. -/
theorem mapSet_keys_nodup (c : WeatherCache) (k : CacheKey)
    (d : OpenMeteoResponse) (ts : ℤ)
    (hnodup : (c.map CacheEntry.key).Nodup) :
    ((mapSet c k d ts).map CacheEntry.key).Nodup := by
  cases hb : c.any (fun e => e.key == k) with
  | true => rw [mapSet_map_key c k d ts hb]; exact hnodup
  | false =>
    have hfresh : k ∉ c.map CacheEntry.key := by
      rw [List.any_eq_false] at hb
      intro hk
      obtain ⟨e, he, hek⟩ := List.mem_map.mp hk
      exact hb e he (by simp [hek])
    unfold mapSet
    rw [if_neg (by simp [hb]), List.map_append]
    simp only [List.map_cons, List.map_nil]
    refine List.Nodup.append hnodup (List.nodup_singleton _) ?_
    intro a ha hak
    rw [List.mem_singleton] at hak
    subst hak
    exact hfresh ha

/-- Overwriting an existing key keeps the size. -/
theorem mapSet_length_overwrite (c : WeatherCache) (k : CacheKey)
    (d : OpenMeteoResponse) (ts : ℤ)
    (hb : c.any (fun e => e.key == k) = true) :
    (mapSet c k d ts).length = c.length := by
  unfold mapSet
  rw [if_pos hb, List.length_map]

/-- Inserting a fresh key grows the size by one. -/
theorem mapSet_length_fresh (c : WeatherCache) (k : CacheKey)
    (d : OpenMeteoResponse) (ts : ℤ)
    (hb : c.any (fun e => e.key == k) = false) :
    (mapSet c k d ts).length = c.length + 1 := by
  unfold mapSet
  rw [if_neg (by simp [hb]), List.length_append]
  rfl

/-- A `put` that does not overflow performs no eviction. -/
theorem cachePut_of_le (k : CacheKey) (d : OpenMeteoResponse) (now : ℤ)
    (c : WeatherCache) (h : (mapSet c k d now).length ≤ 50) :
    cachePut k d now c = mapSet c k d now := by
  unfold cachePut
  rw [if_neg (not_lt.mpr h)]

/-- A `put` that overflows filters out the keys of the 10 oldest entries
of the ascending sort. -/
theorem cachePut_of_gt (k : CacheKey) (d : OpenMeteoResponse) (now : ℤ)
    (c : WeatherCache) (h : 50 < (mapSet c k d now).length) :
    cachePut k d now c = (mapSet c k d now).filter fun e =>
      !((((sortByTimestamp (mapSet c k d now)).take 10).map
        CacheEntry.key).contains e.key) := by
  unfold cachePut
  rw [if_pos h]

/-- With distinct keys, evicting the 10 victim keys keeps exactly the
entries beyond position 10 of the ascending sort (as a permutation of the
insertion-ordered survivors). -/
theorem evict_perm (c1 : WeatherCache)
    (hnodup : (c1.map CacheEntry.key).Nodup) :
    (c1.filter fun e =>
      !((((sortByTimestamp c1).take 10).map CacheEntry.key).contains e.key)).Perm
      ((sortByTimestamp c1).drop 10) := by
  have hperm : (sortByTimestamp c1).Perm c1 := sortByTimestamp_perm c1
  have hkeys : ((sortByTimestamp c1).map CacheEntry.key).Nodup :=
    (hperm.map CacheEntry.key).nodup_iff.mpr hnodup
  set s := sortByTimestamp c1 with hs
  set p : CacheEntry → Bool := fun e =>
    !(((s.take 10).map CacheEntry.key).contains e.key) with hp
  have hkeys2 :
      ((s.take 10).map CacheEntry.key ++ (s.drop 10).map CacheEntry.key).Nodup := by
    rw [← List.map_append, List.take_append_drop]
    exact hkeys
  have hdisj := List.disjoint_of_nodup_append hkeys2
  have hsplit : s.filter p = s.drop 10 := by
    conv_lhs => rw [← List.take_append_drop 10 s]
    rw [List.filter_append]
    have h1 : (s.take 10).filter p = [] := by
      refine List.filter_eq_nil_iff.mpr fun e he => ?_
      have hm : e.key ∈ (s.take 10).map CacheEntry.key :=
        List.mem_map_of_mem CacheEntry.key he
      simp only [List.map_take] at hm
      simp [hp, List.contains, List.elem_iff, hm]
    have h2 : (s.drop 10).filter p = s.drop 10 := by
      refine List.filter_eq_self.mpr fun e he => ?_
      have hm : e.key ∈ (s.drop 10).map CacheEntry.key :=
        List.mem_map_of_mem CacheEntry.key he
      have hnot : e.key ∉ (s.take 10).map CacheEntry.key :=
        fun hmem => hdisj hmem hm
      simp only [List.map_take] at hnot
      simp [hp, List.contains, List.elem_iff, hnot]
    rw [h1, h2, List.nil_append]
  exact hsplit ▸ (hperm.filter p).symm

set_option maxRecDepth 100000 in
/-- **C5.** After every put a cache that held at most 50 distinct-keyed
entries again holds at most 50: a put that makes the size exceed 50 sorts
all entries ascending by insertion time and removes the 10 oldest.
Concretely, inserting 51 distinct keys into an empty cache at increasing
times leaves exactly 41 entries, the 10 oldest-inserted keys absent and
the other 41 keys present. -/
theorem cachePut_bounded :
    (∀ (k : CacheKey) (d : OpenMeteoResponse) (now : ℤ) (c : WeatherCache),
      (c.map CacheEntry.key).Nodup → c.length ≤ 50 →
      (cachePut k d now c).length ≤ 50 ∧
        ((cachePut k d now c).map CacheEntry.key).Nodup) ∧
    (∀ (k : CacheKey) (d : OpenMeteoResponse) (now : ℤ) (c : WeatherCache),
      (c.map CacheEntry.key).Nodup → 50 < (mapSet c k d now).length →
      (cachePut k d now c).Perm
        ((sortByTimestamp (mapSet c k d now)).drop 10)) ∧
    scenarioCache.length = 41 ∧
    (∀ i : ℕ, i < 10 →
      scenarioCache.find? (fun e => e.key == scenarioKey i) = none) ∧
    (∀ i : ℕ, 10 ≤ i → i < 51 →
      (scenarioCache.find? (fun e => e.key == scenarioKey i)).isSome = true) := by
  refine ⟨?_, ?_, by decide, by decide, by decide⟩
  · intro k d now c hnodup hlen
    have hnodup1 := mapSet_keys_nodup c k d now hnodup
    cases hb : c.any (fun e => e.key == k) with
    | true =>
      have hlen1 := mapSet_length_overwrite c k d now hb
      rw [cachePut_of_le k d now c (by omega)]
      exact ⟨by omega, hnodup1⟩
    | false =>
      have hlen1 := mapSet_length_fresh c k d now hb
      by_cases hover : 50 < (mapSet c k d now).length
      · have hperm := evict_perm (mapSet c k d now) hnodup1
        rw [cachePut_of_gt k d now c hover]
        constructor
        · rw [hperm.length_eq, List.length_drop,
            (sortByTimestamp_perm (mapSet c k d now)).length_eq]
          omega
        · exact List.Nodup.sublist
            ((List.filter_sublist _).map CacheEntry.key) hnodup1
      · rw [cachePut_of_le k d now c (not_lt.mp hover)]
        exact ⟨by omega, hnodup1⟩
  · intro k d now c hnodup hover
    rw [cachePut_of_gt k d now c hover]
    exact evict_perm (mapSet c k d now) (mapSet_keys_nodup c k d now hnodup)

set_option maxRecDepth 100000 in
/-- Witness for `cachePut_bounded`: its first two conjuncts applied to a
full 50-entry cache receiving a fresh 51st key, which triggers the
batch eviction. -/
theorem cachePut_bounded_witness :
    ((cachePut (scenarioKey 51) scenarioResponse 51 witnessCache).length ≤ 50 ∧
      ((cachePut (scenarioKey 51) scenarioResponse 51 witnessCache).map
        CacheEntry.key).Nodup) ∧
    (cachePut (scenarioKey 51) scenarioResponse 51 witnessCache).Perm
      ((sortByTimestamp
        (mapSet witnessCache (scenarioKey 51) scenarioResponse 51)).drop 10) :=
  ⟨cachePut_bounded.1 (scenarioKey 51) scenarioResponse 51 witnessCache
      (by decide) (by decide),
   cachePut_bounded.2.1 (scenarioKey 51) scenarioResponse 51 witnessCache
      (by decide) (by decide)⟩

/-- After overwriting key `k`, looking `k` up finds the new entry. -/
theorem find?_overwrite (c : WeatherCache) (k : CacheKey)
    (d : OpenMeteoResponse) (ts : ℤ)
    (hb : c.any (fun e => e.key == k) = true) :
    ((c.map fun e => if e.key == k then ⟨k, d, ts⟩ else e).find?
      (fun e => e.key == k)) = some ⟨k, d, ts⟩ := by
  induction c with
  | nil => simp at hb
  | cons a c ih =>
    rw [List.map_cons]
    by_cases ha : (a.key == k) = true
    · rw [if_pos ha]
      exact List.find?_cons_of_pos _ (by simp)
    · have ha' : ¬ a.key = k := by simpa using ha
      rw [if_neg ha]
      rw [List.find?_cons_of_neg _ (by simpa using ha')]
      refine ih ?_
      simpa [List.any_cons, ha'] using hb

/-- `cachePut` leaves the fresh entry `⟨k, d, now⟩` retrievable under `k`:
it survives even a batch eviction, because its insertion time is maximal
and the stable sort keeps it last. -/
theorem cachePut_find? (k : CacheKey) (d : OpenMeteoResponse) (now : ℤ)
    (c : WeatherCache) (hnodup : (c.map CacheEntry.key).Nodup)
    (hlen : c.length ≤ 50) (hts : ∀ e ∈ c, e.timestamp ≤ now) :
    (cachePut k d now c).find? (fun e => e.key == k) = some ⟨k, d, now⟩ := by
  cases hb : c.any (fun e => e.key == k) with
  | true =>
    have hlen1 := mapSet_length_overwrite c k d now hb
    rw [cachePut_of_le k d now c (by omega)]
    unfold mapSet
    rw [if_pos hb]
    exact find?_overwrite c k d now hb
  | false =>
    have hfresh : ∀ e ∈ c, (e.key == k) = false := by
      rw [List.any_eq_false] at hb
      intro e he
      simpa using hb e he
    have hmapset : mapSet c k d now = c ++ [⟨k, d, now⟩] := by
      unfold mapSet
      rw [if_neg (by simp [hb])]
    have hlen1 : (mapSet c k d now).length = c.length + 1 := by
      rw [hmapset, List.length_append]
      rfl
    by_cases hover : 50 < (mapSet c k d now).length
    · have h50 : c.length = 50 := by omega
      rw [cachePut_of_gt k d now c hover, hmapset]
      have hsortlen : (sortByTimestamp c).length = c.length :=
        (sortByTimestamp_perm c).length_eq
      have htake : (sortByTimestamp (c ++ [⟨k, d, now⟩])).take 10 =
          (sortByTimestamp c).take 10 := by
        rw [sortByTimestamp_append_last c ⟨k, d, now⟩ hts,
          List.take_append_eq_append_take]
        rw [show 10 - (sortByTimestamp c).length = 0 by omega]
        simp
      rw [htake]
      have hkmem : k ∉ List.take 10 ((sortByTimestamp c).map CacheEntry.key) := by
        rw [← List.map_take]
        intro hk
        obtain ⟨e, he, hek⟩ := List.mem_map.mp hk
        have he1 : e ∈ sortByTimestamp c := List.take_subset 10 _ he
        have he2 : e ∈ c := (sortByTimestamp_perm c).subset he1
        have := hfresh e he2
        rw [hek] at this
        simp at this
      have hnone : ∀ l : List CacheEntry, (∀ x ∈ l, (x.key == k) = false) →
          l.find? (fun e => e.key == k) = none := fun l hl =>
        List.find?_eq_none.mpr fun x hx => by simp [hl x hx]
      rw [List.filter_append, List.find?_append,
        hnone _ fun x hx => hfresh x (List.mem_of_mem_filter hx)]
      simp [List.filter_cons, List.contains, hkmem]
    · rw [cachePut_of_le k d now c (not_lt.mp hover), hmapset,
        List.find?_append]
      have hnone : c.find? (fun e => e.key == k) = none := by
        rw [List.find?_eq_none]
        intro x hx
        simp [hfresh x hx]
      rw [hnone]
      simp

/-- With distinct keys, deleting the one entry holding key `k` shrinks the
cache by exactly one. -/
theorem filter_ne_key_length (c : WeatherCache) (k : CacheKey)
    (e : CacheEntry) (hnodup : (c.map CacheEntry.key).Nodup)
    (hfind : c.find? (fun x => x.key == k) = some e) :
    (c.filter fun x => !(x.key == k)).length + 1 = c.length := by
  induction c with
  | nil => simp at hfind
  | cons a c ih =>
    rw [List.map_cons, List.nodup_cons] at hnodup
    by_cases ha : (a.key == k) = true
    · have hk : a.key = k := by simpa using ha
      have hrest : ∀ x ∈ c, ((x.key == k) = false) := by
        intro x hx
        have hxa : x.key ≠ a.key := fun hxa =>
          hnodup.1 (hxa ▸ List.mem_map_of_mem CacheEntry.key hx)
        simp [hk ▸ hxa]
      have hall : (c.filter fun x => !(x.key == k)) = c :=
        List.filter_eq_self.mpr fun x hx => by simp [hrest x hx]
      rw [List.filter_cons]
      simp [ha, hall]
    · have hfind' : c.find? (fun x => x.key == k) = some e := by
        rwa [List.find?_cons_of_neg _ (by simpa using ha)] at hfind
      rw [List.filter_cons]
      have := ih hnodup.2 hfind'
      simp only [ha, Bool.not_false, if_true, List.length_cons,
        List.length_cons]
      simp at this ⊢
      omega

/-- **C6.** (1) Round trip: a `get` performed immediately after a `put`
(same `now`, coordinates equal after 4-decimal rounding, same dates)
returns the stored series — including when the put overflowed a full
50-entry cache, provided the cache keys are distinct and no stored entry
is from the future.  (2) TTL expiry: a `get` whose matching entry has age
`≥ CACHE_DURATION` returns nothing and deletes the stale entry,
shrinking the cache by exactly one. -/
theorem cache_roundtrip_and_ttl :
    (∀ (lat lng lat' lng' : ℚ) (sd ed : String) (d : OpenMeteoResponse)
      (now : ℤ) (c : WeatherCache),
      (c.map CacheEntry.key).Nodup → c.length ≤ 50 →
      (∀ e ∈ c, e.timestamp ≤ now) →
      generateCacheKey lat' lng' sd ed = generateCacheKey lat lng sd ed →
      (getCachedWeatherData lat' lng' sd ed now
        (cacheWeatherData lat lng sd ed d now c)).1 = some d) ∧
    (∀ (lat lng : ℚ) (sd ed : String) (now : ℤ) (c : WeatherCache)
      (e : CacheEntry),
      (c.map CacheEntry.key).Nodup →
      c.find? (fun x => x.key == generateCacheKey lat lng sd ed) = some e →
      CACHE_DURATION ≤ now - e.timestamp →
      (getCachedWeatherData lat lng sd ed now c).1 = none ∧
      (getCachedWeatherData lat lng sd ed now c).2.length + 1 = c.length) := by
  constructor
  · intro lat lng lat' lng' sd ed d now c hnodup hlen hts hkey
    have hvalid : isCacheValid now now = true := by
      simp [isCacheValid, CACHE_DURATION]
    simp only [getCachedWeatherData, cacheWeatherData, hkey]
    rw [cachePut_find? (generateCacheKey lat lng sd ed) d now c
      hnodup hlen hts]
    simp [hvalid]
  · intro lat lng sd ed now c e hnodup hfind hexp
    have hvalid : isCacheValid e.timestamp now = false := by
      simp only [isCacheValid, decide_eq_false_iff_not]
      exact not_lt.mpr hexp
    simp only [getCachedWeatherData]
    rw [hfind]
    simp only [hvalid, Bool.false_eq_true, if_false, ite_false]
    exact ⟨trivial, filter_ne_key_length c (generateCacheKey lat lng sd ed) e
      hnodup hfind⟩

/-- Witness for `cache_roundtrip_and_ttl`: a put-then-get round trip on
the empty cache at `now = 0`, and a TTL-expired `get` at
`now = CACHE_DURATION` on a one-entry cache, which empties it. -/
theorem cache_roundtrip_and_ttl_witness :
    (getCachedWeatherData 0 0 "s" "e" 0
      (cacheWeatherData 0 0 "s" "e" scenarioResponse 0 [])).1 =
      some scenarioResponse ∧
    (getCachedWeatherData 0 0 "s" "e" 300000
      [⟨⟨0, 0, "s", "e"⟩, scenarioResponse, 0⟩]).1 = none ∧
    (getCachedWeatherData 0 0 "s" "e" 300000
      [⟨⟨0, 0, "s", "e"⟩, scenarioResponse, 0⟩]).2.length + 1 = 1 := by
  have h1 := cache_roundtrip_and_ttl.1 0 0 0 0 "s" "e" scenarioResponse 0 []
    (by decide) (by decide) (by intro e he; simp at he) rfl
  have h2 := cache_roundtrip_and_ttl.2 0 0 "s" "e" 300000
    [⟨⟨0, 0, "s", "e"⟩, scenarioResponse, 0⟩]
    ⟨⟨0, 0, "s", "e"⟩, scenarioResponse, 0⟩
    (by decide)
    (by simp [generateCacheKey, toFixed4, List.find?])
    (by simp [CACHE_DURATION])
  exact ⟨h1, h2.1, h2.2⟩

/-- **C8.** Every failing refresh (axios error of any kind, any other
thrown error, or a malformed response body) produces a trace that
publishes exactly one user-facing error message, contains no
`setWeatherData`/`updatePolygonColor`, ends with `setLoading false`
(the function is total: nothing escapes the `catch`), and leaves every
polygon's color and value untouched. -/
theorem fetch_failure_no_update (polygon : Polygon)
    (selectedStartTime selectedEndTime : Option ℤ) (now : ℤ)
    (colorRules : List ColorRule) (outcome : FetchOutcome)
    (hfail : isFailureOutcome outcome) :
    (fetchWeatherDataTrace polygon selectedStartTime selectedEndTime now
      colorRules outcome).countP isErrorMessage = 1 ∧
    (∀ a ∈ fetchWeatherDataTrace polygon selectedStartTime selectedEndTime
      now colorRules outcome, isColorUpdate a = false ∧
        (∀ pid wd, a ≠ Action.setWeatherData pid wd)) ∧
    (fetchWeatherDataTrace polygon selectedStartTime selectedEndTime now
      colorRules outcome).getLast? = some (Action.setLoading false) ∧
    (∀ polygons : List Polygon,
      (fetchWeatherDataTrace polygon selectedStartTime selectedEndTime now
        colorRules outcome).foldl stepPolygons polygons = polygons) := by
  cases outcome with
  | success resp =>
    have hh : resp.hourly = none := hfail
    refine ⟨?_, ?_, ?_, ?_⟩ <;>
      simp [fetchWeatherDataTrace, hh, isErrorMessage, isColorUpdate,
        stepPolygons]
  | axiosFailure status code reason =>
    refine ⟨?_, ?_, ?_, ?_⟩ <;>
      simp [fetchWeatherDataTrace, isErrorMessage, isColorUpdate,
        stepPolygons]
  | errorFailure msg =>
    refine ⟨?_, ?_, ?_, ?_⟩ <;>
      simp [fetchWeatherDataTrace, isErrorMessage, isColorUpdate,
        stepPolygons]

/-- Witness for `fetch_failure_no_update` on a concrete thrown error:
one error message, trailing `setLoading false`, and an untouched polygon
list. -/
theorem fetch_failure_witness :
    (fetchWeatherDataTrace examplePolygon none none 0 []
      (.errorFailure "boom")).countP isErrorMessage = 1 ∧
    (fetchWeatherDataTrace examplePolygon none none 0 []
      (.errorFailure "boom")).getLast? = some (Action.setLoading false) ∧
    (fetchWeatherDataTrace examplePolygon none none 0 []
      (.errorFailure "boom")).foldl stepPolygons [examplePolygon] =
      [examplePolygon] :=
  ⟨(fetch_failure_no_update examplePolygon none none 0 []
      (.errorFailure "boom") trivial).1,
   (fetch_failure_no_update examplePolygon none none 0 []
      (.errorFailure "boom") trivial).2.2.1,
   (fetch_failure_no_update examplePolygon none none 0 []
      (.errorFailure "boom") trivial).2.2.2 [examplePolygon]⟩

/-- Everything produced by `updateFirst` is an original element or the
image of an original element under the update function. -/
theorem updateFirst_mem (f : Polygon → Polygon) (id : String) :
    ∀ (ps : List Polygon) (q : Polygon), q ∈ updateFirst f id ps →
      q ∈ ps ∨ ∃ p ∈ ps, q = f p
  | [], q, h => by simp [updateFirst] at h
  | p :: ps, q, h => by
    unfold updateFirst at h
    by_cases hp : (p.id == id) = true
    · rw [if_pos hp] at h
      rcases List.mem_cons.mp h with h | h
      · exact Or.inr ⟨p, List.mem_cons_self p ps, h⟩
      · exact Or.inl (List.mem_cons_of_mem _ h)
    · rw [if_neg hp] at h
      rcases List.mem_cons.mp h with h | h
      · exact Or.inl (h ▸ List.mem_cons_self p ps)
      · rcases updateFirst_mem f id ps q h with h' | ⟨r, hr, hq⟩
        · exact Or.inl (List.mem_cons_of_mem _ h')
        · exact Or.inr ⟨r, List.mem_cons_of_mem _ hr, hq⟩

/-- One reducer step preserves "every persisted polygon has ≥ 3
vertices", provided an `updatePolygon` action does not write `points`. -/
theorem polygonReducer_preserves (st : PolygonState) (a : PolygonAction)
    (hpp : pointsPreserving a)
    (hinv : ∀ p ∈ st.polygons, 3 ≤ p.points.length) :
    ∀ p ∈ (polygonReducer st a).polygons, 3 ≤ p.points.length := by
  cases a with
  | startDrawing => exact hinv
  | addDrawingPoint p => exact hinv
  | cancelDrawing => exact hinv
  | selectPolygon id => exact hinv
  | finishDrawing name dsId newId =>
    by_cases h3 : 3 ≤ st.drawingPoints.length
    · intro p hp
      simp only [polygonReducer, if_pos h3] at hp
      rcases List.mem_append.mp hp with hp | hp
      · exact hinv p hp
      · rw [List.mem_singleton] at hp
        subst hp
        exact h3
    · intro p hp
      simp only [polygonReducer, if_neg h3] at hp
      exact hinv p hp
  | deletePolygon id =>
    intro p hp
    simp only [polygonReducer] at hp
    exact hinv p (List.mem_of_mem_filter hp)
  | updatePolygon id u =>
    intro q hq
    simp only [polygonReducer] at hq
    rcases updateFirst_mem _ id st.polygons q hq with h | ⟨p, hp, hq'⟩
    · exact hinv q h
    · have hu : u.points = none := hpp
      subst hq'
      simpa [applyUpdates, hu] using hinv p hp
  | updatePolygonColor id color value =>
    intro q hq
    simp only [polygonReducer] at hq
    rcases updateFirst_mem _ id st.polygons q hq with h | ⟨p, hp, hq'⟩
    · exact hinv q h
    · subst hq'
      simpa using hinv p hp

/-- Invariant for whole action sequences. -/
theorem runActions_preserves (acts : List PolygonAction) :
    ∀ st : PolygonState, (∀ a ∈ acts, pointsPreserving a) →
      (∀ p ∈ st.polygons, 3 ≤ p.points.length) →
      ∀ p ∈ (runActions st acts).polygons, 3 ≤ p.points.length := by
  induction acts with
  | nil => intro st _ hinv; exact hinv
  | cons a acts ih =>
    intro st hpp hinv
    exact ih (polygonReducer st a)
      (fun b hb => hpp b (List.mem_cons_of_mem a hb))
      (polygonReducer_preserves st a (hpp a (List.mem_cons_self a acts)) hinv)

/-- **C9.** `finishDrawing` appends a polygon (with the draft's points and
the default color) exactly when the draft has at least 3 points; with
fewer no polygon is added; in either case drawing mode is cleared and the
draft emptied.  Hence, along any action sequence from the initial state in
which no `updatePolygon` payload writes `points` (the repository's only
call site updates `name` only), every persisted polygon has at least 3
vertices. -/
theorem finishDrawing_spec :
    (∀ (st : PolygonState) (name dsId newId : String),
      3 ≤ st.drawingPoints.length →
      (polygonReducer st (.finishDrawing name dsId newId)).polygons =
        st.polygons ++
          [⟨newId, name, st.drawingPoints, dsId, "#3388ff", none, none⟩] ∧
      (polygonReducer st (.finishDrawing name dsId newId)).isDrawing = false ∧
      (polygonReducer st (.finishDrawing name dsId newId)).drawingPoints = []) ∧
    (∀ (st : PolygonState) (name dsId newId : String),
      st.drawingPoints.length < 3 →
      (polygonReducer st (.finishDrawing name dsId newId)).polygons =
        st.polygons ∧
      (polygonReducer st (.finishDrawing name dsId newId)).isDrawing = false ∧
      (polygonReducer st (.finishDrawing name dsId newId)).drawingPoints = []) ∧
    (∀ acts : List PolygonAction, (∀ a ∈ acts, pointsPreserving a) →
      ∀ p ∈ (runActions initialPolygonState acts).polygons,
        3 ≤ p.points.length) := by
  refine ⟨?_, ?_, ?_⟩
  · intro st name dsId newId h3
    refine ⟨?_, rfl, rfl⟩
    simp only [polygonReducer, if_pos h3]
  · intro st name dsId newId h3
    refine ⟨?_, rfl, rfl⟩
    simp only [polygonReducer, if_neg (not_le.mpr h3)]
  · intro acts hpp
    exact runActions_preserves acts initialPolygonState hpp
      (fun p hp => by simp [initialPolygonState] at hp)

/-- Witness for `finishDrawing_spec`: a three-click drawing session
persists the drawn triangle, and the resulting state satisfies the
≥ 3 vertices bound at the persisted polygon. -/
theorem finishDrawing_witness :
    (polygonReducer ⟨[], true, none, [⟨0, 0⟩, ⟨1, 0⟩, ⟨0, 1⟩]⟩
      (.finishDrawing "Area" "ds1" "polygon_1")).polygons =
      [] ++ [demoPolygon] ∧
    3 ≤ demoPolygon.points.length := by
  constructor
  · exact (finishDrawing_spec.1 ⟨[], true, none, [⟨0, 0⟩, ⟨1, 0⟩, ⟨0, 1⟩]⟩
      "Area" "ds1" "polygon_1" (by decide)).1
  · exact finishDrawing_spec.2.2 demoActs
      (by intro a ha; fin_cases ha <;> trivial)
      demoPolygon (by decide)

/-- **C4 (counterexample).** A refresh whose requested range is adjusted
by the validator does *not* aggregate over the originally-requested
window: with `now = 0`, selected window `[+1d, +2d]` (future start, so the
validator resolves `[−1d, 0]`) and a series holding 5 at `t = −1000` and
20 at `t = +1d+1s`, the published value is 5 — the mean over the
*resolved* window — while the mean over the originally selected window is
20. -/
theorem fetch_window_counterexample :
    publishedColorValue (fetchWeatherDataTrace examplePolygon
      (some 86400000) (some 172800000) 0 []
      (.success ⟨0, 0, some ⟨[-1000, 86401000], [some 5, some 20]⟩⟩)) =
      some (defaultColor, some 5) ∧
    calculateAverageValue [some 5, some 20] [-1000, 86401000]
      86400000 172800000 = 20 ∧
    (5 : ℚ) ≠ 20 := by
  refine ⟨?_, ?_, by norm_num⟩
  · norm_num [publishedColorValue, fetchWeatherDataTrace, fetchDates,
      resolvedRange, validateDateRange, calculateAverageValue, windowValues,
      applyColorRules, dayMs, List.findSome?]
  · norm_num [calculateAverageValue, windowValues]

/-- **C4 (amended).** On a successful fetch with a well-formed body, the
orchestrator aggregates over the *validator-resolved* window (the
requested window after default-filling and validation adjustment)
intersected with the returned data, classifies the aggregate with the
rules, and publishes `{color, value}`. -/
theorem fetch_publishes_resolved_window_aggregate (polygon : Polygon)
    (selectedStartTime selectedEndTime : Option ℤ) (now : ℤ)
    (colorRules : List ColorRule) (resp : OpenMeteoResponse)
    (hourly : OpenMeteoHourly) (hresp : resp.hourly = some hourly) :
    ∀ avg : ℚ,
      avg = calculateAverageValue hourly.temperature_2m hourly.time
        (resolvedRange (fetchDates selectedStartTime selectedEndTime now).1
          (fetchDates selectedStartTime selectedEndTime now).2 now).1
        (resolvedRange (fetchDates selectedStartTime selectedEndTime now).1
          (fetchDates selectedStartTime selectedEndTime now).2 now).2 →
      publishedColorValue (fetchWeatherDataTrace polygon selectedStartTime
        selectedEndTime now colorRules (.success resp)) =
        some (applyColorRules avg colorRules, some avg) := by
  intro avg havg
  subst havg
  simp [fetchWeatherDataTrace, hresp, publishedColorValue, List.findSome?]

/-- Witness for `fetch_publishes_resolved_window_aggregate` at a concrete
successful refresh with one in-window sample of 12. -/
theorem fetch_publishes_witness :
    publishedColorValue (fetchWeatherDataTrace examplePolygon none none 0 []
      (.success ⟨0, 0, some ⟨[-100000000], [some 12]⟩⟩)) =
      some (applyColorRules (calculateAverageValue [some 12] [-100000000]
        (resolvedRange (fetchDates none none 0).1 (fetchDates none none 0).2
          0).1
        (resolvedRange (fetchDates none none 0).1 (fetchDates none none 0).2
          0).2) [],
      some (calculateAverageValue [some 12] [-100000000]
        (resolvedRange (fetchDates none none 0).1 (fetchDates none none 0).2
          0).1
        (resolvedRange (fetchDates none none 0).1 (fetchDates none none 0).2
          0).2)) :=
  fetch_publishes_resolved_window_aggregate examplePolygon none none 0 []
    ⟨0, 0, some ⟨[-100000000], [some 12]⟩⟩ ⟨[-100000000], [some 12]⟩ rfl
    _ rfl

end MindWeb
